import Mathlib

/-!
Verification of the secure-webhook chatbot demo server
(`docs/chatbot_example/demo_server.py`).

The Python source is shallowly embedded below.  Conventions:

* Byte strings are `List Nat` with each entry `< 256`.
* External collaborators (the HTTP fetch `requests.get`, the AES-CBC block
  cipher from `Crypto.Cipher`, the `hashlib.md5` digest, `random.choice`,
  `time.time`) are passed in as explicit function parameters, mirroring the
  spec's treatment of them as injected capabilities.
* The on-disk JSON cache directory (`/tmp/llm_demo_cache`) is modelled as a
  keyed store `String → Option TaskData`: one key per `<stream_id>.json`
  file, `none` when the file does not exist.  Writing a file with mode `w`
  is an unconditional overwrite of that key.
* Python exceptions that a function catches and converts to an error return
  are modelled with explicit error constructors.
* The outbound stream messages are modelled as the plain JSON objects the
  source builds (`json.dumps` serialisation and the subsequent
  `WXBizJsonMsgCrypt` encryption are external to this file's claims).
-/

namespace DemoServer

/-- Byte strings: lists of naturals, each `< 256`. -/
abbrev Bytes := List Nat

/-! ### Base64 (Python `base64.b64encode` / `base64.b64decode`)

Standard RFC 4648 alphabet.  `b64encodeC` produces the padded encoding of a
byte list; `b64decodeC` decodes, failing (`none`) on characters outside the
alphabet or misplaced padding. -/

def b64chars : List Char :=
  "ABCDEFGHIJKLMNOPQRSTUVWXYZabcdefghijklmnopqrstuvwxyz0123456789+/".toList

def b64charVal (c : Char) : Option Nat :=
  b64chars.findIdx? (fun x => x = c)

def b64encodeC : Bytes → List Char
  | b0 :: b1 :: b2 :: rest =>
    b64chars.getD (b0 / 4) ' ' ::
    b64chars.getD (b0 % 4 * 16 + b1 / 16) ' ' ::
    b64chars.getD (b1 % 16 * 4 + b2 / 64) ' ' ::
    b64chars.getD (b2 % 64) ' ' ::
    b64encodeC rest
  | [b0, b1] =>
    [b64chars.getD (b0 / 4) ' ', b64chars.getD (b0 % 4 * 16 + b1 / 16) ' ',
     b64chars.getD (b1 % 16 * 4) ' ', '=']
  | [b0] =>
    [b64chars.getD (b0 / 4) ' ', b64chars.getD (b0 % 4 * 16) ' ', '=', '=']
  | [] => []

def b64decodeC : List Char → Option Bytes
  | [] => some []
  | c0 :: c1 :: c2 :: c3 :: rest =>
    match b64charVal c0, b64charVal c1 with
    | some v0, some v1 =>
      if c2 = '=' then
        if c3 = '=' then
          if rest = [] then some [v0 * 4 + v1 / 16] else none
        else none
      else
        match b64charVal c2 with
        | some v2 =>
          if c3 = '=' then
            if rest = [] then some [v0 * 4 + v1 / 16, v1 % 16 * 16 + v2 / 4]
            else none
          else
            match b64charVal c3 with
            | some v3 =>
              (b64decodeC rest).map
                (fun bs =>
                  (v0 * 4 + v1 / 16) :: (v1 % 16 * 16 + v2 / 4) ::
                    (v2 % 4 * 64 + v3) :: bs)
            | none => none
        | none => none
    | _, _ => none
  | _ => none

def b64encodeStr (l : Bytes) : String := String.mk (b64encodeC l)

def b64decodeStr (s : String) : Option Bytes := b64decodeC s.toList

/-- Python `aes_key_base64 + "=" * (-len(aes_key_base64) % 4)`: permissive padding
to the next multiple of 4 characters. -/
def padKeyB64 (s : String) : String :=
  s ++ String.mk (List.replicate ((4 - s.toList.length % 4) % 4) '=')

/-! ### Task store (`LLMDemo` and its JSON cache files)

`/tmp/llm_demo_cache/<stream_id>.json` holds one JSON object per task.  The
directory is modelled as `Store`; `created_time` (Python `time.time()`) is an
abstract injected timestamp. -/

/-- Constant `MAX_STEPS` from the source. -/
def MAX_STEPS : Nat := 10

/-- The JSON object written to a task cache file. -/
structure TaskData where
  question : String
  created_time : Nat
  current_step : Nat
  max_steps : Nat
deriving DecidableEq

/-- The cache directory: one entry per `<stream_id>.json` file. -/
def Store := String → Option TaskData

/-- Empty cache directory. -/
def Store.empty : Store := fun _ => none

/-- Python `open(cache_file, 'w')` + `json.dump`: unconditional overwrite. -/
def Store.write (s : Store) (stream_id : String) (d : TaskData) : Store :=
  fun x => if x = stream_id then some d else s x

/-- Python `string.ascii_letters + string.digits`: the 62-character alphabet
`_generate_random_string` draws from. -/
def letters : List Char :=
  "abcdefghijklmnopqrstuvwxyzABCDEFGHIJKLMNOPQRSTUVWXYZ0123456789".toList

/-- Source `_generate_random_string(length)`.  `random.choice` is injected as
`choice : Nat → Nat`, giving the index drawn at each position (reduced mod 62
so every injected source is a valid instance of Python's uniform draw). -/
def generate_random_string (choice : Nat → Nat) (length : Nat) : String :=
  String.mk ((List.range length).map (fun i => letters.getD (choice i % 62) 'a'))

namespace LLMDemo

/-- Source `LLMDemo.invoke(question)`: build a fresh id from the injected randomness,
then write the initial record — with no collision check — and return the id.
`now` is the injected `time.time()` value. -/
def invoke (choice : Nat → Nat) (now : Nat) (store : Store) (question : String) :
    Store × String :=
  let stream_id := generate_random_string choice 10
  (store.write stream_id
    { question := question, created_time := now, current_step := 0,
      max_steps := MAX_STEPS }, stream_id)

/-- Response text for an absent task file. -/
def notFoundAnswer : String := "任务不存在或已过期"

/-- One `'处理步骤 %d: 已完成\n' % (i)` line. -/
def stepLine (i : Nat) : String := "处理步骤 " ++ toString i ++ ": 已完成\n"

/-- The response-building loop of `get_answer`: start from the question echo
and append one line per completed step, exactly as the Python `for` loop. -/
def buildResponse (question : String) (current_step : Nat) : String :=
  (List.range current_step).foldl (fun acc i => acc ++ stepLine i)
    ("收到问题：" ++ question ++ "\n")

/-- Source `LLMDemo.get_answer(stream_id)`: absent file → fixed not-found answer and
no write; otherwise increment `current_step` by one (no cap), write the file
back, and render the response for the incremented step. -/
def get_answer (store : Store) (stream_id : String) : Store × String :=
  match store stream_id with
  | none => (store, notFoundAnswer)
  | some task_data =>
    let current_step := task_data.current_step + 1
    let store := store.write stream_id { task_data with current_step := current_step }
    (store, buildResponse task_data.question current_step)

/-- Source `LLMDemo.is_task_finish(stream_id)`: `True` when the file is absent,
else `current_step >= max_steps`. -/
def is_task_finish (store : Store) (stream_id : String) : Bool :=
  match store stream_id with
  | none => true
  | some task_data => task_data.max_steps ≤ task_data.current_step

end LLMDemo

/-- Runs `n` sequential `get_answer` calls on the same id (the store each call
leaves behind is the one the next call reads). -/
def advanceN (store : Store) (stream_id : String) : Nat → Store
  | 0 => store
  | n + 1 => (LLMDemo.get_answer (advanceN store stream_id n) stream_id).1

/-- The step counter an observer reads for an id (0 when absent). -/
def stepOf (store : Store) (stream_id : String) : Nat :=
  ((store stream_id).map TaskData.current_step).getD 0

/-- Spec 4.5 `renderAnswer`: an echo of the question, then one completion
line for each `i ∈ [0, step)` (definition follows the spec's words; compared
against the source's `buildResponse` loop below). -/
def renderAnswerSpec (question : String) (step : Nat) : String :=
  ("收到问题：" ++ question ++ "\n") ++
    String.join ((List.range step).map LLMDemo.stepLine)

/-! ### Attachment decryption (`_process_encrypted_image`) -/

/-- The caught exception classes of `_process_encrypted_image`, each mapped
by the source to a `(False, error_msg)` return. -/
inductive ImgErr
  /-- Python `requests.exceptions.RequestException`: `"图片下载失败 : ..."`. -/
  | downloadFailed
  /-- Python `ValueError("AES密钥不能为空")`. -/
  | emptyKey
  /-- Python `binascii.Error` (a `ValueError`) from `base64.b64decode`. -/
  | keyDecodeFailed
  /-- Python `ValueError("无效的AES密钥长度: 应为32字节")`. -/
  | badKeyLength
  /-- Python `ValueError("无效的填充长度 (大于32字节)")`. -/
  | badPadLength
  /-- Python `IndexError` reading `decrypted_data[-1]` of an empty buffer,
  caught by the generic `Exception` branch. -/
  | emptyBuffer
deriving DecidableEq

/-- Return value of `_process_encrypted_image`: the `(True, bytes)` or
`(False, error)` pair. -/
inductive PResult
  | ok (data : Bytes)
  | fail (e : ImgErr)
deriving DecidableEq

/-- Python `data[:-p]` for a natural `p`: empty when `p = 0` (Python`s
`[:-0]` is `[:0]`), else drop the last `p` elements. -/
def pySliceToNeg (l : Bytes) (p : Nat) : Bytes :=
  if p = 0 then [] else l.take (l.length - p)

/-- Source `_process_encrypted_image(image_url, aes_key_base64)`.  `fetch` is the
external `requests.get` (`none` = `RequestException`); `aesDecrypt` is the
external `AES.new(key, AES.MODE_CBC, iv).decrypt` block cipher, taking key,
IV and ciphertext. -/
def process_encrypted_image (fetch : String → Option Bytes)
    (aesDecrypt : Bytes → Bytes → Bytes → Bytes)
    (image_url : String) (aes_key_base64 : String) : PResult :=
  match fetch image_url with
  | none => .fail .downloadFailed
  | some encrypted_data =>
    if aes_key_base64 = "" then .fail .emptyKey
    else
      match b64decodeStr (padKeyB64 aes_key_base64) with
      | none => .fail .keyDecodeFailed
      | some aes_key =>
        if aes_key.length ≠ 32 then .fail .badKeyLength
        else
          let iv := aes_key.take 16
          let decrypted_data := aesDecrypt aes_key iv encrypted_data
          match decrypted_data.getLast? with
          | none => .fail .emptyBuffer
          | some pad_len =>
            if pad_len > 32 then .fail .badPadLength
            else .ok (pySliceToNeg decrypted_data pad_len)

/-! ### Outbound stream messages (`MakeTextStream` / `MakeImageStream`) -/

/-- One `msg_item` entry: `{"msgtype":"image","image":{"base64":..,"md5":..}}`. -/
structure ImageItem where
  base64 : String
  md5 : String
deriving DecidableEq

/-- The `stream` object carries either `content` or `msg_item`. -/
inductive StreamContent
  | text (content : String)
  | items (msg_item : List ImageItem)
deriving DecidableEq

/-- The `{"msgtype":"stream","stream":{...}}` object. -/
structure StreamMsg where
  id : String
  finish : Bool
  content : StreamContent
deriving DecidableEq

def MakeTextStream (stream_id : String) (content : String) (finish : Bool) :
    StreamMsg :=
  { id := stream_id, finish := finish, content := .text content }

/-- Source `MakeImageStream(stream_id, image_data, finish)`: digest the raw bytes
with the external `hashlib.md5(...).hexdigest()` (injected as `md5hex`), and
base64-encode the raw bytes for the `base64` field. -/
def MakeImageStream (md5hex : Bytes → String) (stream_id : String)
    (image_data : Bytes) (finish : Bool) : StreamMsg :=
  { id := stream_id, finish := finish,
    content := .items
      [{ base64 := b64encodeStr image_data, md5 := md5hex image_data }] }

/-! ### The POST callback dispatch (`handle_message`, after decryption)

Signature check and envelope decryption precede the dispatch and are handled
by the external `WXBizJsonMsgCrypt`; the dispatch below starts from the
decrypted message. -/

/-- The decrypted inbound message, dispatched on its `msgtype` field. -/
inductive InMsg
  | text (content : String)
  | stream (id : String)
  | image (url : String)
  | mixed
  | event
  | other (msgtype : String)
  /-- a decrypted JSON object with no `msgtype` key -/
  | noMsgtype
deriving DecidableEq

/-- What the route handler produces for one decrypted message. -/
inductive HandlerResult
  /-- Python `raise HTTPException(status_code=...)` — used only by the
  pre-dispatch stages (missing query params, decrypt failure). -/
  | httpError (code : Nat)
  /-- Python `Response(content=s)` with a plain body. -/
  | body (s : String)
  /-- Python `Response(content=EncryptMessage(...))`: the stream message that gets
  encrypted and returned. -/
  | reply (msg : StreamMsg)
  /-- the Python function returns `None` (explicit `return` or falling off
  the end). -/
  | pyNone
deriving DecidableEq

/-- Log lines the dispatch emits (`logger.warning` / `logger.error`). -/
inductive LogEntry
  /-- Log `"不认识的事件"` -/
  | unknownEvent
  /-- Log `"图片处理失败: %s"` -/
  | imageFailed (e : ImgErr)
  /-- Log `"需要支持mixed消息类型"` -/
  | needMixedSupport
  /-- Log `"需要支持event消息类型: %s"` -/
  | needEventSupport
  /-- Log `"不支持的消息类型: %s"` -/
  | unsupportedType (t : String)
deriving DecidableEq

/-- The dispatch of `handle_message` on the decrypted message, lines
255-311 of the source.  Returns the store left behind, the handler's
return value, and the warning/error log entries emitted. -/
def handle_message (choice : Nat → Nat) (now : Nat) (md5hex : Bytes → String)
    (fetch : String → Option Bytes) (aesDecrypt : Bytes → Bytes → Bytes → Bytes)
    (aes_key_env : String) (store : Store) (msg : InMsg) :
    Store × HandlerResult × List LogEntry :=
  match msg with
  | .noMsgtype => (store, .body "success", [.unknownEvent])
  | .text content =>
    let r1 := LLMDemo.invoke choice now store content
    let r2 := LLMDemo.get_answer r1.1 r1.2
    let finish := LLMDemo.is_task_finish r2.1 r1.2
    (r2.1, .reply (MakeTextStream r1.2 r2.2 finish), [])
  | .stream stream_id =>
    let r := LLMDemo.get_answer store stream_id
    let finish := LLMDemo.is_task_finish r.1 stream_id
    (r.1, .reply (MakeTextStream stream_id r.2 finish), [])
  | .image url =>
    match process_encrypted_image fetch aesDecrypt url aes_key_env with
    | .fail e => (store, .pyNone, [.imageFailed e])
    | .ok decrypted_data =>
      let stream_id := generate_random_string choice 10
      (store, .reply (MakeImageStream md5hex stream_id decrypted_data true), [])
  | .mixed => (store, .pyNone, [.needMixedSupport])
  | .event => (store, .pyNone, [.needEventSupport])
  | .other t => (store, .pyNone, [.unsupportedType t])

/-! ### Concurrent advances (§5 of the spec)

`get_answer` touches the cache file twice: a read (`open`/`json.load`,
lines 175-176) and a write of the incremented record (lines 179-182).
Concurrent polls interleave at this granularity.  Each thread `t` performs
one `readFile t` followed (possibly after other threads' events) by one
`writeFile t`. -/

/-- One file-system event of one polling thread. -/
inductive Ev
  /-- thread `t` reads and parses the cache file -/
  | readFile (t : Nat)
  /-- thread `t` writes back its incremented copy -/
  | writeFile (t : Nat)
deriving DecidableEq

/-- Shared store plus each thread's parsed copy of the file. -/
structure ConcState where
  store : Store
  regs : Nat → Option TaskData

def stepEv (stream_id : String) (st : ConcState) : Ev → ConcState
  | .readFile t =>
    { st with regs := fun x => if x = t then st.store stream_id else st.regs x }
  | .writeFile t =>
    match st.regs t with
    | none => st
    | some d =>
      { st with
        store := st.store.write stream_id
          { d with current_step := d.current_step + 1 } }

def runSched (stream_id : String) (st : ConcState) (evs : List Ev) : ConcState :=
  evs.foldl (stepEv stream_id) st

/-- The fully sequential schedule: thread 0 reads and writes, then thread 1,
and so on. -/
def seqSched (n : Nat) : List Ev :=
  (List.range n).flatMap (fun t => [Ev.readFile t, Ev.writeFile t])

/-- Predicate: `evs` is an interleaving of `n` one-shot advance threads: a permutation
of all `2n` events in which every thread reads before it writes. -/
def validSched (n : Nat) (evs : List Ev) : Prop :=
  evs.Perm (seqSched n) ∧
  ∀ t, t < n → evs.indexOf (Ev.readFile t) < evs.indexOf (Ev.writeFile t)

end DemoServer

namespace DemoServer

/-! ## Supporting lemmas -/

lemma Store.write_self (s : Store) (id : String) (d : TaskData) :
    Store.write s id d id = some d := by
  simp [Store.write]

lemma Store.write_other (s : Store) (id x : String) (d : TaskData)
    (h : x ≠ id) : Store.write s id d x = s x := by
  simp [Store.write, h]

/-- Looking up the character the encoder emitted recovers its index. -/
lemma b64charVal_getD (i : Nat) (h : i < 64) :
    b64charVal (b64chars.getD i ' ') = some i := by
  have hall : ∀ j : Fin 64, b64charVal (b64chars.getD j.val ' ') = some j.val := by
    decide
  exact hall ⟨i, h⟩

/-- Alphabet characters are never the padding character. -/
lemma b64charVal_ne_pad {c : Char} {v : Nat} (h : b64charVal c = some v) :
    c ≠ '=' := by
  intro hc
  subst hc
  have : b64charVal '=' = none := by decide
  rw [this] at h
  exact Option.noConfusion h

/-- The first two decoded positions of a 4-character group rebuild the first
two bytes (arithmetic core of the round trip). -/
lemma b64_rebuild (b0 b1 b2 : Nat) (hb0 : b0 < 256) (hb1 : b1 < 256)
    (hb2 : b2 < 256) :
    b0 / 4 * 4 + (b0 % 4 * 16 + b1 / 16) / 16 = b0 ∧
    (b0 % 4 * 16 + b1 / 16) % 16 * 16 + (b1 % 16 * 4 + b2 / 64) / 4 = b1 ∧
    (b1 % 16 * 4 + b2 / 64) % 4 * 64 + b2 % 64 = b2 := by
  obtain ⟨x, hx⟩ : ∃ x, b0 % 4 * 16 + b1 / 16 = x := ⟨_, rfl⟩
  obtain ⟨y, hy⟩ : ∃ y, b1 % 16 * 4 + b2 / 64 = y := ⟨_, rfl⟩
  rw [hx, hy]
  refine ⟨by omega, by omega, by omega⟩

/-- Tail variant of `b64_rebuild` for the final one- or two-byte group. -/
lemma b64_rebuild_tail (b0 b1 : Nat) (hb0 : b0 < 256) (hb1 : b1 < 256) :
    b0 / 4 * 4 + (b0 % 4 * 16 + b1 / 16) / 16 = b0 ∧
    (b0 % 4 * 16 + b1 / 16) % 16 * 16 + b1 % 16 * 4 / 4 = b1 ∧
    b0 / 4 * 4 + b0 % 4 * 16 / 16 = b0 := by
  obtain ⟨x, hx⟩ : ∃ x, b0 % 4 * 16 + b1 / 16 = x := ⟨_, rfl⟩
  rw [hx]
  refine ⟨by omega, by omega, by omega⟩

/-- Decoding inverts encoding on genuine byte lists. -/
theorem b64decodeC_encodeC :
    ∀ l : Bytes, (∀ b ∈ l, b < 256) → b64decodeC (b64encodeC l) = some l
  | [] => fun _ => by simp [b64encodeC, b64decodeC]
  | [b0] => fun h => by
    have hb0 : b0 < 256 := h b0 (by simp)
    have h0 : b0 / 4 < 64 := by omega
    have h1 : b0 % 4 * 16 < 64 := by omega
    simp only [b64encodeC, b64decodeC, b64charVal_getD _ h0, b64charVal_getD _ h1,
      reduceIte]
    rw [(b64_rebuild_tail b0 0 hb0 (by omega)).2.2]
  | [b0, b1] => fun h => by
    have hb0 : b0 < 256 := h b0 (by simp)
    have hb1 : b1 < 256 := h b1 (by simp)
    have h0 : b0 / 4 < 64 := by omega
    have h1 : b0 % 4 * 16 + b1 / 16 < 64 := by omega
    have h2 : b1 % 16 * 4 < 64 := by omega
    have hne2 : b64chars.getD (b1 % 16 * 4) ' ' ≠ '=' :=
      b64charVal_ne_pad (b64charVal_getD _ h2)
    simp only [b64encodeC, b64decodeC, b64charVal_getD _ h0, b64charVal_getD _ h1,
      b64charVal_getD _ h2, if_neg hne2, reduceIte]
    rw [(b64_rebuild_tail b0 b1 hb0 hb1).1, (b64_rebuild_tail b0 b1 hb0 hb1).2.1]
  | [b0, b1, b2] => fun h => by
    have hb0 : b0 < 256 := h b0 (by simp)
    have hb1 : b1 < 256 := h b1 (by simp)
    have hb2 : b2 < 256 := h b2 (by simp)
    have h0 : b0 / 4 < 64 := by omega
    have h1 : b0 % 4 * 16 + b1 / 16 < 64 := by omega
    have h2 : b1 % 16 * 4 + b2 / 64 < 64 := by omega
    have h3 : b2 % 64 < 64 := by omega
    have hne2 : b64chars.getD (b1 % 16 * 4 + b2 / 64) ' ' ≠ '=' :=
      b64charVal_ne_pad (b64charVal_getD _ h2)
    have hne3 : b64chars.getD (b2 % 64) ' ' ≠ '=' :=
      b64charVal_ne_pad (b64charVal_getD _ h3)
    have hrest : b64decodeC (b64encodeC ([] : Bytes)) = some [] := by
      simp [b64encodeC, b64decodeC]
    simp only [b64encodeC, b64decodeC, b64charVal_getD _ h0, b64charVal_getD _ h1,
      b64charVal_getD _ h2, b64charVal_getD _ h3, if_neg hne2, if_neg hne3, hrest,
      Option.map_some]
    rw [(b64_rebuild b0 b1 b2 hb0 hb1 hb2).1, (b64_rebuild b0 b1 b2 hb0 hb1 hb2).2.1,
      (b64_rebuild b0 b1 b2 hb0 hb1 hb2).2.2]
    rfl
  | b0 :: b1 :: b2 :: b3 :: rest => fun h => by
    have hb0 : b0 < 256 := h b0 (by simp)
    have hb1 : b1 < 256 := h b1 (by simp)
    have hb2 : b2 < 256 := h b2 (by simp)
    have h0 : b0 / 4 < 64 := by omega
    have h1 : b0 % 4 * 16 + b1 / 16 < 64 := by omega
    have h2 : b1 % 16 * 4 + b2 / 64 < 64 := by omega
    have h3 : b2 % 64 < 64 := by omega
    have hne2 : b64chars.getD (b1 % 16 * 4 + b2 / 64) ' ' ≠ '=' :=
      b64charVal_ne_pad (b64charVal_getD _ h2)
    have hne3 : b64chars.getD (b2 % 64) ' ' ≠ '=' :=
      b64charVal_ne_pad (b64charVal_getD _ h3)
    have hrest : b64decodeC (b64encodeC (b3 :: rest)) = some (b3 :: rest) :=
      b64decodeC_encodeC (b3 :: rest) (fun b hb => h b (by simp [hb]))
    simp only [b64encodeC, b64decodeC, b64charVal_getD _ h0, b64charVal_getD _ h1,
      b64charVal_getD _ h2, b64charVal_getD _ h3, if_neg hne2, if_neg hne3, hrest,
      Option.map_some]
    rw [(b64_rebuild b0 b1 b2 hb0 hb1 hb2).1, (b64_rebuild b0 b1 b2 hb0 hb1 hb2).2.1,
      (b64_rebuild b0 b1 b2 hb0 hb1 hb2).2.2]
    rfl

lemma get_answer_absent {store : Store} {id : String} (h : store id = none) :
    LLMDemo.get_answer store id = (store, LLMDemo.notFoundAnswer) := by
  simp [LLMDemo.get_answer, h]

lemma get_answer_present {store : Store} {id : String} {d : TaskData}
    (h : store id = some d) :
    LLMDemo.get_answer store id =
      (store.write id { d with current_step := d.current_step + 1 },
       LLMDemo.buildResponse d.question (d.current_step + 1)) := by
  simp [LLMDemo.get_answer, h]

/-- On a fresh task, `n` sequential advances leave the counter at exactly
`n` — in particular there is no saturation at `max_steps`. -/
lemma advanceN_fresh (choice : Nat → Nat) (now : Nat) (q : String) (n : Nat) :
    advanceN (LLMDemo.invoke choice now Store.empty q).1
        (LLMDemo.invoke choice now Store.empty q).2 n
        (LLMDemo.invoke choice now Store.empty q).2 =
      some { question := q, created_time := now, current_step := n,
             max_steps := MAX_STEPS } := by
  induction n with
  | zero => simp [advanceN, LLMDemo.invoke, Store.write]
  | succ n ih =>
    show (LLMDemo.get_answer (advanceN _ _ n) _).1 _ = _
    rw [get_answer_present ih]
    simp [Store.write]

/-- Appending one rendered line per element equals the echo followed by the
joined rendered lines. -/
lemma foldl_append_join (f : Nat → String) (l : List Nat) (init : String) :
    l.foldl (fun acc i => acc ++ f i) init = init ++ String.join (l.map f) := by
  induction l generalizing init with
  | nil =>
    apply String.ext
    simp [String.join_eq]
  | cons x xs ih =>
    rw [List.foldl_cons, ih]
    apply String.ext
    simp [String.join_eq]

/-- The source's response loop implements the spec's `renderAnswer`. -/
lemma buildResponse_eq_renderAnswerSpec (q : String) (s : Nat) :
    LLMDemo.buildResponse q s = renderAnswerSpec q s := by
  unfold LLMDemo.buildResponse renderAnswerSpec
  exact foldl_append_join _ _ _

/-! ## Claims -/

/-- Claim C1 is false as stated: `get_answer` never saturates the step
counter at `max_steps`.  With `MAX_STEPS = 10`, eleven advances on a freshly
created task drive `current_step` to 11, violating the claimed invariant
`currentStep ≤ maxSteps`. -/
theorem c1_counterexample_no_saturation :
    (LLMDemo.invoke (fun _ => 0) 0 Store.empty "q").2 = "aaaaaaaaaa" ∧
    (advanceN (LLMDemo.invoke (fun _ => 0) 0 Store.empty "q").1 "aaaaaaaaaa" 11)
        "aaaaaaaaaa" =
      some { question := "q", created_time := 0, current_step := 11,
             max_steps := MAX_STEPS } ∧
    ¬ (11 ≤ MAX_STEPS) := by
  decide

/-- Claim C1 (amended): each `get_answer` adds exactly 1 to a present task's
`current_step`, with no cap at `max_steps`; hence the counter is
non-decreasing under every advance, and a fresh task shows exactly `n` after
`n` advances — so `currentStep ≤ maxSteps` holds precisely while the number
of advances stays within `maxSteps`. -/
theorem c1_amended_monotone_unbounded :
    (∀ (store : Store) (id : String),
      stepOf store id ≤ stepOf (LLMDemo.get_answer store id).1 id) ∧
    (∀ (choice : Nat → Nat) (now : Nat) (q : String) (n : Nat),
      advanceN (LLMDemo.invoke choice now Store.empty q).1
          (LLMDemo.invoke choice now Store.empty q).2 n
          (LLMDemo.invoke choice now Store.empty q).2 =
        some { question := q, created_time := now, current_step := n,
               max_steps := MAX_STEPS }) := by
  constructor
  · intro store id
    cases h : store id with
    | none => rw [get_answer_absent h]
    | some d =>
      rw [get_answer_present h]
      simp [stepOf, h, Store.write]
  · exact advanceN_fresh

/-- Claim C2 is false as stated: `invoke` performs no collision check.  When
the injected randomness reproduces an id already present in the store, the
existing record (here at step 5) is overwritten by the fresh
`current_step = 0` record. -/
theorem c2_counterexample_overwrite :
    (LLMDemo.invoke (fun _ => 0) 1
        (Store.write Store.empty "aaaaaaaaaa"
          { question := "old", created_time := 0, current_step := 5,
            max_steps := 10 }) "new").2 = "aaaaaaaaaa" ∧
    (Store.write Store.empty "aaaaaaaaaa"
        { question := "old", created_time := 0, current_step := 5,
          max_steps := 10 }) "aaaaaaaaaa" =
      some { question := "old", created_time := 0, current_step := 5,
             max_steps := 10 } ∧
    (LLMDemo.invoke (fun _ => 0) 1
        (Store.write Store.empty "aaaaaaaaaa"
          { question := "old", created_time := 0, current_step := 5,
            max_steps := 10 }) "new").1 "aaaaaaaaaa" =
      some { question := "new", created_time := 1, current_step := 0,
             max_steps := MAX_STEPS } := by
  decide

/-- Claim C2 (amended): `invoke` draws a single 10-character alphanumeric id
and writes the `current_step = 0` record unconditionally: exactly the key
equal to the returned id changes, so when the drawn id equals an existing
one the stored record is overwritten rather than re-drawn. -/
theorem c2_amended_unconditional_write :
    ∀ (choice : Nat → Nat) (now : Nat) (store : Store) (q : String),
      (LLMDemo.invoke choice now store q).2.length = 10 ∧
      ((LLMDemo.invoke choice now store q).2.toList.all
        (fun c => letters.contains c)) = true ∧
      (∀ x, (LLMDemo.invoke choice now store q).1 x =
        if x = (LLMDemo.invoke choice now store q).2 then
          some { question := q, created_time := now, current_step := 0,
                 max_steps := MAX_STEPS }
        else store x) := by
  intro choice now store q
  refine ⟨?_, ?_, fun x => rfl⟩
  · simp [LLMDemo.invoke, generate_random_string]
  · have hall : ∀ j : Fin 62, letters.contains (letters.getD j.val 'a') = true := by
      decide
    show ((List.range 10).map
        (fun i => letters.getD (choice i % 62) 'a')).all
        (fun c => letters.contains c) = true
    rw [List.all_eq_true]
    intro c hc
    obtain ⟨i, _, rfl⟩ := List.mem_map.1 hc
    exact hall ⟨choice i % 62, Nat.mod_lt _ (by omega)⟩

/-- Claim C5: an absent id makes `get_answer` return the user-facing
not-found text as an ordinary answer value (the store untouched, no error
raised) and makes `is_task_finish` report `true`; a present record is
finished exactly when `current_step ≥ max_steps`. -/
theorem c5_absent_answered_finish_iff (store : Store) (idA idP : String)
    (d : TaskData) (hA : store idA = none) (hP : store idP = some d) :
    LLMDemo.get_answer store idA = (store, "任务不存在或已过期") ∧
    LLMDemo.is_task_finish store idA = true ∧
    (LLMDemo.is_task_finish store idP = true ↔ d.max_steps ≤ d.current_step) := by
  refine ⟨get_answer_absent hA, ?_, ?_⟩
  · simp [LLMDemo.is_task_finish, hA]
  · simp [LLMDemo.is_task_finish, hP]

theorem c5_absent_answered_finish_iff_witness :
    LLMDemo.get_answer
        (Store.write Store.empty "p"
          { question := "hi", created_time := 0, current_step := 7,
            max_steps := 10 }) "z" =
      (Store.write Store.empty "p"
        { question := "hi", created_time := 0, current_step := 7,
          max_steps := 10 }, "任务不存在或已过期") ∧
    LLMDemo.is_task_finish
        (Store.write Store.empty "p"
          { question := "hi", created_time := 0, current_step := 7,
            max_steps := 10 }) "z" = true ∧
    (LLMDemo.is_task_finish
        (Store.write Store.empty "p"
          { question := "hi", created_time := 0, current_step := 7,
            max_steps := 10 }) "p" = true ↔ (10 : Nat) ≤ 7) :=
  c5_absent_answered_finish_iff _ "z" "p" _ rfl rfl

/-- Claim C6: for a present record the rendered answer is a deterministic
function of the question and the post-advance step `s = current_step + 1`:
the echo of the question followed by one completion line for each
`i ∈ [0, s)`, and `s` is exactly the step persisted back. -/
theorem c6_deterministic_render (store : Store) (id : String) (d : TaskData)
    (h : store id = some d) :
    (LLMDemo.get_answer store id).2 =
      renderAnswerSpec d.question (d.current_step + 1) ∧
    (LLMDemo.get_answer store id).1 id =
      some { d with current_step := d.current_step + 1 } := by
  rw [get_answer_present h]
  exact ⟨buildResponse_eq_renderAnswerSpec _ _, Store.write_self _ _ _⟩

theorem c6_deterministic_render_witness :
    (LLMDemo.get_answer
        (Store.write Store.empty "t"
          { question := "hi", created_time := 0, current_step := 2,
            max_steps := 10 }) "t").2 = renderAnswerSpec "hi" (2 + 1) ∧
    (LLMDemo.get_answer
        (Store.write Store.empty "t"
          { question := "hi", created_time := 0, current_step := 2,
            max_steps := 10 }) "t").1 "t" =
      some { question := "hi", created_time := 0, current_step := 2 + 1,
             max_steps := 10 } :=
  c6_deterministic_render
    (Store.write Store.empty "t"
      { question := "hi", created_time := 0, current_step := 2,
        max_steps := 10 }) "t"
    { question := "hi", created_time := 0, current_step := 2, max_steps := 10 }
    rfl

/-- Claim C3 is false in its final clause: a trailing pad byte `p = 0`
passes the `p > 32` check, but Python's `decrypted_data[:-0]` is the empty
slice, so the code strips the whole buffer rather than "exactly 0 bytes".
Here the decrypted buffer is `[7, 0]`, yet the call returns `ok []`, not
`ok [7, 0]`. -/
theorem c3_counterexample_pad_zero_strips_all :
    process_encrypted_image (fun _ => some [1, 2]) (fun _ _ _ => [7, 0])
        "http://img" "AAECAwQFBgcICQoLDA0ODxAREhMUFRYXGBkaGxwdHh8" =
      .ok [] ∧
    ([7, 0] : Bytes).getLast? = some 0 ∧ ¬ ((0 : Nat) > 32) ∧
    ([] : Bytes) ≠ [7, 0] := by
  decide

/-- Claim C3 (amended): the key is base64-decoded after permissive `'='`
padding to a multiple of 4; a decoded length other than 32 fails as an
invalid key; otherwise the ciphertext is decrypted with the external
AES-256-CBC cipher using the first 16 bytes of the decoded key as IV, and
the trailing pad byte `p` is validated against the 32-byte ceiling:
`p > 32` fails as a padding error, `1 ≤ p ≤ 32` strips the last `p` bytes
(clamping to empty when `p` exceeds the buffer), and `p = 0` strips the
entire buffer, returning empty bytes. -/
theorem c3_amended_attachment_decrypt (fetch : String → Option Bytes)
    (aesDecrypt : Bytes → Bytes → Bytes → Bytes) (url keyStr : String)
    (ct key : Bytes) (hf : fetch url = some ct) (hk : keyStr ≠ "")
    (hdec : b64decodeStr (padKeyB64 keyStr) = some key) :
    (key.length ≠ 32 →
      process_encrypted_image fetch aesDecrypt url keyStr = .fail .badKeyLength) ∧
    (key.length = 32 →
      (∀ p, (aesDecrypt key (key.take 16) ct).getLast? = some p → p > 32 →
        process_encrypted_image fetch aesDecrypt url keyStr =
          .fail .badPadLength) ∧
      (∀ p, (aesDecrypt key (key.take 16) ct).getLast? = some p → 1 ≤ p →
          p ≤ 32 →
        process_encrypted_image fetch aesDecrypt url keyStr =
          .ok ((aesDecrypt key (key.take 16) ct).take
            ((aesDecrypt key (key.take 16) ct).length - p))) ∧
      ((aesDecrypt key (key.take 16) ct).getLast? = some 0 →
        process_encrypted_image fetch aesDecrypt url keyStr = .ok [])) := by
  constructor
  · intro hlen
    simp [process_encrypted_image, hf, hk, hdec, hlen]
  · intro hlen
    refine ⟨?_, ?_, ?_⟩
    · intro p hp hgt
      simp [process_encrypted_image, hf, hk, hdec, hlen, hp, hgt]
    · intro p hp h1 h32
      simp [process_encrypted_image, hf, hk, hdec, hlen, hp,
        Nat.not_lt.mpr h32, pySliceToNeg]
      omega
    · intro hp
      simp [process_encrypted_image, hf, hk, hdec, hlen, hp, pySliceToNeg]

theorem c3_amended_attachment_decrypt_witness :
    process_encrypted_image (fun _ => some [9]) (fun _ _ _ => [5, 6, 2]) "u"
        "AAECAwQFBgcICQoLDA0ODxAREhMUFRYXGBkaGxwdHh8" =
      .ok (([5, 6, 2] : Bytes).take (([5, 6, 2] : Bytes).length - 2)) :=
  ((c3_amended_attachment_decrypt (fun _ => some [9]) (fun _ _ _ => [5, 6, 2])
      "u" "AAECAwQFBgcICQoLDA0ODxAREhMUFRYXGBkaGxwdHh8" [9] (List.range 32)
      rfl (by decide) (by decide)).2 (by decide)).2.1 2 rfl (by decide)
    (by decide)

/-- Claim C10: a final decrypted byte of 0 is accepted by the
greater-than-32 padding check, and the strip `decrypted_data[:-0]` empties
the buffer, so decryption succeeds with empty plaintext. -/
theorem c10_pad_zero_accepted_empty (fetch : String → Option Bytes)
    (aesDecrypt : Bytes → Bytes → Bytes → Bytes) (url keyStr : String)
    (ct key d : Bytes) (hf : fetch url = some ct) (hk : keyStr ≠ "")
    (hdec : b64decodeStr (padKeyB64 keyStr) = some key)
    (hlen : key.length = 32) (hd : aesDecrypt key (key.take 16) ct = d)
    (hlast : d.getLast? = some 0) :
    process_encrypted_image fetch aesDecrypt url keyStr = .ok [] := by
  subst hd
  simp [process_encrypted_image, hf, hk, hdec, hlen, hlast, pySliceToNeg]

theorem c10_pad_zero_accepted_empty_witness :
    process_encrypted_image (fun _ => some [3, 4]) (fun _ _ _ => [8, 8, 0]) "u"
        "AAECAwQFBgcICQoLDA0ODxAREhMUFRYXGBkaGxwdHh8" = .ok [] :=
  c10_pad_zero_accepted_empty (fun _ => some [3, 4]) (fun _ _ _ => [8, 8, 0])
    "u" "AAECAwQFBgcICQoLDA0ODxAREhMUFRYXGBkaGxwdHh8" [3, 4] (List.range 32)
    [8, 8, 0] rfl (by decide) (by decide) (by decide) rfl rfl

/-- Claim C7: `MakeImageStream` digests the raw (pre-base64) bytes — the
`md5` field is the injected digest applied to `image_data` itself — and the
`base64` field is the base64 encoding of those same raw bytes (decoding it
recovers them exactly). -/
theorem c7_md5_over_raw_bytes (md5hex : Bytes → String) (stream_id : String)
    (image_data : Bytes) (finish : Bool) :
    (MakeImageStream md5hex stream_id image_data finish).content =
      .items [{ base64 := b64encodeStr image_data, md5 := md5hex image_data }] ∧
    (MakeImageStream md5hex stream_id image_data finish).id = stream_id ∧
    (MakeImageStream md5hex stream_id image_data finish).finish = finish ∧
    ((∀ b ∈ image_data, b < 256) →
      b64decodeStr (b64encodeStr image_data) = some image_data) :=
  ⟨rfl, rfl, rfl, fun h => b64decodeC_encodeC image_data h⟩

theorem c7_md5_over_raw_bytes_witness :
    (MakeImageStream (fun _ => "d41d8cd9") "sid" [0, 255, 10] true).content =
      .items [{ base64 := b64encodeStr [0, 255, 10], md5 := "d41d8cd9" }] ∧
    (MakeImageStream (fun _ => "d41d8cd9") "sid" [0, 255, 10] true).id =
      "sid" ∧
    (MakeImageStream (fun _ => "d41d8cd9") "sid" [0, 255, 10] true).finish =
      true ∧
    b64decodeStr (b64encodeStr [0, 255, 10]) = some [0, 255, 10] :=
  have h := c7_md5_over_raw_bytes (fun _ => "d41d8cd9") "sid" [0, 255, 10] true
  ⟨h.1, h.2.1, h.2.2.1, h.2.2.2 (by decide)⟩

/-- Claim C8 is false as stated: a `mixed` (or `event`) message is only
logged — the handler returns `None`, not a response carrying a
not-implemented marker; an unrecognized `msgtype` likewise yields `None`
rather than a neutral response body. -/
theorem c8_counterexample_mixed_no_response :
    handle_message (fun _ => 0) 0 (fun _ => "") (fun _ => none)
        (fun _ _ _ => []) "k" Store.empty .mixed =
      (Store.empty, .pyNone, [.needMixedSupport]) ∧
    handle_message (fun _ => 0) 0 (fun _ => "") (fun _ => none)
        (fun _ _ _ => []) "k" Store.empty .event =
      (Store.empty, .pyNone, [.needEventSupport]) ∧
    handle_message (fun _ => 0) 0 (fun _ => "") (fun _ => none)
        (fun _ _ _ => []) "k" Store.empty (.other "voice") =
      (Store.empty, .pyNone, [.unsupportedType "voice"]) :=
  ⟨rfl, rfl, rfl⟩

/-- Claim C8 (amended): `mixed` and `event` messages are acknowledged only
in the process log (a not-implemented warning) while the handler itself
returns `None` with the store untouched; any other unrecognized `msgtype`
is likewise logged as unsupported and answered with `None`; no dispatch
branch raises an HTTP error. -/
theorem c8_amended_warn_and_return_none (choice : Nat → Nat) (now : Nat)
    (md5hex : Bytes → String) (fetch : String → Option Bytes)
    (aesDecrypt : Bytes → Bytes → Bytes → Bytes) (k : String) (store : Store)
    (t : String) :
    handle_message choice now md5hex fetch aesDecrypt k store .mixed =
      (store, .pyNone, [.needMixedSupport]) ∧
    handle_message choice now md5hex fetch aesDecrypt k store .event =
      (store, .pyNone, [.needEventSupport]) ∧
    handle_message choice now md5hex fetch aesDecrypt k store (.other t) =
      (store, .pyNone, [.unsupportedType t]) ∧
    (∀ (msg : InMsg) (code : Nat),
      (handle_message choice now md5hex fetch aesDecrypt k store msg).2.1 ≠
        .httpError code) := by
  refine ⟨rfl, rfl, rfl, ?_⟩
  intro msg code
  cases msg with
  | image url =>
    simp only [handle_message]
    cases process_encrypted_image fetch aesDecrypt url k <;> simp
  | _ => simp [handle_message]

/-- Claim C9 is false as stated: when the attachment fetch fails, the
handler logs the failure and returns `None` — no apology/failure message is
placed in any response body. -/
theorem c9_counterexample_fetch_failure_returns_none :
    handle_message (fun _ => 0) 0 (fun _ => "") (fun _ => none)
        (fun _ _ _ => []) "AAECAwQFBgcICQoLDA0ODxAREhMUFRYXGBkaGxwdHh8"
        Store.empty (.image "http://img") =
      (Store.empty, .pyNone, [.imageFailed .downloadFailed]) :=
  rfl

/-- Claim C9 (amended): whenever `_process_encrypted_image` fails — fetch
failure or any key/padding parameter failure — the handler logs the error
and returns `None` (no response body, no retry of the single fetch call),
leaving the store untouched. -/
theorem c9_amended_failure_logged_none (choice : Nat → Nat) (now : Nat)
    (md5hex : Bytes → String) (fetch : String → Option Bytes)
    (aesDecrypt : Bytes → Bytes → Bytes → Bytes) (k url : String)
    (store : Store) (e : ImgErr)
    (h : process_encrypted_image fetch aesDecrypt url k = .fail e) :
    handle_message choice now md5hex fetch aesDecrypt k store (.image url) =
      (store, .pyNone, [.imageFailed e]) := by
  simp [handle_message, h]

theorem c9_amended_failure_logged_none_witness :
    handle_message (fun _ => 0) 7 (fun _ => "") (fun _ => none)
        (fun _ _ _ => []) "key" Store.empty (.image "u") =
      (Store.empty, .pyNone, [.imageFailed .downloadFailed]) :=
  c9_amended_failure_logged_none (fun _ => 0) 7 (fun _ => "") (fun _ => none)
    (fun _ _ _ => []) "key" "u" Store.empty .downloadFailed rfl

lemma runSched_append (id : String) (st : ConcState) (a b : List Ev) :
    runSched id st (a ++ b) = runSched id (runSched id st a) b := by
  simp [runSched, List.foldl_append]

/-- A thread's read followed immediately by its write has exactly the store
effect of one `get_answer` call. -/
lemma read_write_pair_store (id : String) (st : ConcState) (t : Nat) :
    (runSched id st [.readFile t, .writeFile t]).store =
      (LLMDemo.get_answer st.store id).1 := by
  cases h : st.store id with
  | none => simp [runSched, stepEv, h, get_answer_absent h]
  | some d => simp [runSched, stepEv, h, get_answer_present h]

lemma seqSched_succ (n : Nat) :
    seqSched (n + 1) = seqSched n ++ [Ev.readFile n, Ev.writeFile n] := by
  simp [seqSched, List.range_succ]

/-- Running the fully sequential schedule advances the record `n` times. -/
lemma runSched_seq (id : String) (st : ConcState) (d0 : TaskData)
    (h : st.store id = some d0) (n : Nat) :
    (runSched id st (seqSched n)).store id =
      some { d0 with current_step := d0.current_step + n } := by
  induction n with
  | zero => simpa [runSched, seqSched] using h
  | succ n ih =>
    rw [seqSched_succ, runSched_append, read_write_pair_store,
      get_answer_present ih]
    simp [Store.write]
    omega

/-- Claim C4 is false as stated: `get_answer` is a plain read-then-write,
so the interleaving in which both of 2 concurrent advances read the fresh
record (step 0) before either writes is a valid concurrent execution with
`maxSteps = 10 ≥ 2`, yet it ends with `currentStep = 1`, not 2 — one
increment is lost. -/
theorem c4_counterexample_lost_update :
    validSched 2 [.readFile 0, .readFile 1, .writeFile 0, .writeFile 1] ∧
    stepOf (runSched "aaaaaaaaaa"
        { store := (LLMDemo.invoke (fun _ => 0) 0 Store.empty "q").1,
          regs := fun _ => none }
        [.readFile 0, .readFile 1, .writeFile 0, .writeFile 1]).store
      "aaaaaaaaaa" = 1 ∧
    (2 : Nat) ≤ MAX_STEPS ∧ (1 : Nat) ≠ 2 := by
  refine ⟨⟨by decide, by decide⟩, by decide, by decide, by decide⟩

/-- Claim C4 (amended): each advance is a non-atomic read-then-write whose
read/write pair, run without interleaving, is exactly one `get_answer`; the
fully sequential execution of `n` advances on a fresh task reaches
`currentStep = n`, but overlapping interleavings can lose increments (see
the counterexample). -/
theorem c4_amended_sequential_reaches_n :
    (∀ (id : String) (st : ConcState) (t : Nat),
      (runSched id st [.readFile t, .writeFile t]).store =
        (LLMDemo.get_answer st.store id).1) ∧
    (∀ (choice : Nat → Nat) (now : Nat) (q : String) (n : Nat),
      stepOf (runSched (LLMDemo.invoke choice now Store.empty q).2
          { store := (LLMDemo.invoke choice now Store.empty q).1,
            regs := fun _ => none } (seqSched n)).store
        (LLMDemo.invoke choice now Store.empty q).2 = n) := by
  refine ⟨fun id st t => read_write_pair_store id st t, ?_⟩
  intro choice now q n
  have h0 : (LLMDemo.invoke choice now Store.empty q).1
      (LLMDemo.invoke choice now Store.empty q).2 =
      some { question := q, created_time := now, current_step := 0,
             max_steps := MAX_STEPS } := by
    simp [LLMDemo.invoke, Store.write]
  rw [stepOf, runSched_seq _ _ _ h0 n]
  simp

end DemoServer
